import Mathlib

/-!
Verification of the mission-control aggregation engine of
Distributed-Mission-Control-for-LND against its specification.

The Go source is shallowly embedded: `ecrpc.PairData` becomes a structure of
six `Int` fields (Go `int64`), pointers that may be `nil` become `Option`,
fallible handlers return `Except`, and the bbolt bucket becomes an
association list from 66-byte keys to `PairData`.  Go `int64` division
truncates toward zero, which is `Int.tdiv`.  Timestamps and durations are
modelled in whole UNIX seconds, the granularity at which the source compares
them (`time.Unix(ts, 0)`).
-/

/-- PairData embeds `ecrpc.PairData`: the observation record for one directed
node pair (src/unnamed/part_007, data model of the ecrpc package).  All six
fields are Go `int64` values, modelled as `Int`. -/
structure PairData where
  failTime : Int
  failAmtSat : Int
  failAmtMsat : Int
  successTime : Int
  successAmtSat : Int
  successAmtMsat : Int
deriving Repr, DecidableEq

/-- PairHistory embeds `ecrpc.PairHistory`: a wire pair of node identifiers
(byte slices, modelled as lists of bytes) together with an optional history
record (`*ecrpc.PairData`, whose `nil` is `none`). -/
structure PairHistory where
  nodeFrom : List Nat
  nodeTo : List Nat
  history : Option PairData
deriving Repr, DecidableEq

/-- `PubKeyCompressedSize` from src/unnamed/part_007 line 21. -/
def PubKeyCompressedSize : Nat := 33

/-- `mSatScale` from src/unnamed/part_007 line 30: scales satoshis to
milli-satoshis. -/
def mSatScale : Int := 1000

/-- Modelled from the spec: the constant `MinFailureRelaxInterval` is used by
`mergePairData` (src/unnamed/part_007 line 492) but its declaration is not
among the provided sources.  The spec fixes a default of one minute, and the
repository's own test (src/unnamed/part_011, relaxation-interval case)
requires it to exceed five seconds.  Value in seconds. -/
def MinFailureRelaxInterval : Int := 60

/-- `mostRecentUnixTimestamp` from src/utils_test.go lines 192-200: the
maximum of the given timestamps, starting from the zero value of `int64`
(so the result is clamped below by 0). -/
def mostRecentUnixTimestamp (timestamps : List Int) : Int :=
  timestamps.foldl (fun mostRecent ts => if ts > mostRecent then ts else mostRecent) 0

/-- `isHistoryStale` from src/unnamed/part_007 lines 443-455: a history is
stale when its most recent timestamp lies strictly before `now - threshold`.
`nowSec` and `thresholdSec` are in whole seconds. -/
def isHistoryStale (history : PairData) (nowSec thresholdSec : Int) : Bool :=
  decide (mostRecentUnixTimestamp [history.failTime, history.successTime] <
    nowSec - thresholdSec)

/-- First block of `mergePairData` (src/unnamed/part_007 lines 473-481,
rule M1): take a strictly newer success time and retain the larger success
amount. -/
def mergeM1 (existingData newData : PairData) : PairData :=
  if newData.successTime > existingData.successTime then
    if newData.successAmtMsat > existingData.successAmtMsat then
      { existingData with
          successTime := newData.successTime
          successAmtMsat := newData.successAmtMsat }
    else
      { existingData with successTime := newData.successTime }
  else existingData

/-- The relaxation-guard condition of `mergePairData` (src/unnamed/part_007
lines 483-499): a strictly newer failure that would raise the failure amount
within `minRelax` seconds of the previous failure is discarded.  The Go code
checks the amount and interval conditions inside `if newData.FailTime >
existingData.FailTime`; the conjunction is flattened here. -/
def relaxGuardTrips (minRelax : Int) (existingData newData : PairData) : Prop :=
  newData.failTime > existingData.failTime ∧
  newData.failAmtMsat > existingData.failAmtMsat ∧
  newData.failTime - existingData.failTime < minRelax

instance (minRelax : Int) (e n : PairData) : Decidable (relaxGuardTrips minRelax e n) :=
  inferInstanceAs (Decidable (_ ∧ _ ∧ _))

/-- Failure-update block of `mergePairData` (src/unnamed/part_007 lines
483-517 with the guard already excluded, rule M2): take the newer failure
time and amount, and shrink or zero the success amount when the new failure
invades it. -/
def mergeM2 (existingData newData : PairData) : PairData :=
  if newData.failTime > existingData.failTime then
    if newData.failAmtMsat = 0 then
      { existingData with
          failTime := newData.failTime
          failAmtMsat := newData.failAmtMsat
          successAmtMsat := 0 }
    else if newData.failAmtMsat ≤ existingData.successAmtMsat then
      { existingData with
          failTime := newData.failTime
          failAmtMsat := newData.failAmtMsat
          successAmtMsat := newData.failAmtMsat - 1 }
    else
      { existingData with
          failTime := newData.failTime
          failAmtMsat := newData.failAmtMsat }
  else existingData

/-- Success-into-failure repair of `mergePairData` (src/unnamed/part_007
lines 519-526, rule M3): a success reaching the failure amount pushes the
failure amount one msat above it. -/
def mergeM3 (existingData newData : PairData) : PairData :=
  if existingData.failTime ≠ 0 ∧ newData.successAmtMsat ≥ existingData.failAmtMsat then
    { existingData with failAmtMsat := newData.successAmtMsat + 1 }
  else existingData

/-- Unit rederivation of `mergePairData` (src/unnamed/part_007 lines 528-531,
rule M4): rederive the satoshi amounts from the millisatoshi amounts by Go
`int64` division (truncation toward zero). -/
def mergeM4 (existingData : PairData) : PairData :=
  { existingData with
      successAmtSat := Int.tdiv existingData.successAmtMsat mSatScale
      failAmtSat := Int.tdiv existingData.failAmtMsat mSatScale }

/-- `mergePairData` from src/unnamed/part_007 lines 471-532, parameterized by
the relaxation interval (seconds): apply M1; if the relaxation guard trips,
return early (skipping M3 and M4, as the Go `return` on line 498 does);
otherwise apply M2, M3 and M4.  The guard is evaluated on the state after M1,
exactly as in the source, where M1 has already mutated `existingData` (M1
does not touch the failure fields). -/
def mergePairDataWith (minRelax : Int) (existingData newData : PairData) : PairData :=
  if relaxGuardTrips minRelax (mergeM1 existingData newData) newData then
    mergeM1 existingData newData
  else
    mergeM4 (mergeM3 (mergeM2 (mergeM1 existingData newData) newData) newData)

/-- `mergePairData` at the repository's relaxation interval. -/
def mergePairData (existingData newData : PairData) : PairData :=
  mergePairDataWith MinFailureRelaxInterval existingData newData

/-- State-transformer transcription of rule M3 of `mergePairData`
(src/unnamed/part_007 lines 519-526) on the two-pointer state
`(existingData, newData)`. -/
def mergePairDataMutM3 (s : PairData × PairData) : PairData × PairData :=
  if s.1.failTime ≠ 0 ∧ s.2.successAmtMsat ≥ s.1.failAmtMsat then
    ({ s.1 with failAmtMsat := s.2.successAmtMsat + 1 }, s.2)
  else s

/-- State-transformer transcription of rule M4 of `mergePairData`
(src/unnamed/part_007 lines 528-531). -/
def mergePairDataMutM4 (s : PairData × PairData) : PairData × PairData :=
  ({ s.1 with
      successAmtSat := Int.tdiv s.1.successAmtMsat mSatScale
      failAmtSat := Int.tdiv s.1.failAmtMsat mSatScale }, s.2)

/-- State-transformer transcription of `mergePairData` from the failure block
onward (src/unnamed/part_007 lines 483-532), including the guard's early
`return` on line 498 which skips M3 and M4. -/
def mergePairDataMutFail (minRelax : Int) (s : PairData × PairData) : PairData × PairData :=
  if s.2.failTime > s.1.failTime then
    if s.2.failAmtMsat > s.1.failAmtMsat ∧ s.2.failTime - s.1.failTime < minRelax then
      s
    else
      mergePairDataMutM4 (mergePairDataMutM3
        (if s.2.failAmtMsat = 0 then
          ({ s.1 with
              failTime := s.2.failTime
              failAmtMsat := s.2.failAmtMsat
              successAmtMsat := 0 }, s.2)
        else if s.2.failAmtMsat ≤ s.1.successAmtMsat then
          ({ s.1 with
              failTime := s.2.failTime
              failAmtMsat := s.2.failAmtMsat
              successAmtMsat := s.2.failAmtMsat - 1 }, s.2)
        else
          ({ s.1 with
              failTime := s.2.failTime
              failAmtMsat := s.2.failAmtMsat }, s.2)))
  else mergePairDataMutM4 (mergePairDataMutM3 s)

/-- The two-pointer state semantics of `mergePairData`: the Go function
receives `existingData` and `newData` by pointer and mutates through them; the
state is the pair of both records and every assignment of the source updates
a component of it.  Transcribed independently of `mergePairDataWith` from
src/unnamed/part_007 lines 471-532 (every assignment in the source targets a
field of `existingData`, the first component). -/
def mergePairDataMut (minRelax : Int) (s : PairData × PairData) : PairData × PairData :=
  mergePairDataMutFail minRelax
    (if s.2.successTime > s.1.successTime then
      if s.2.successAmtMsat > s.1.successAmtMsat then
        ({ s.1 with successTime := s.2.successTime, successAmtMsat := s.2.successAmtMsat }, s.2)
      else ({ s.1 with successTime := s.2.successTime }, s.2)
    else s)

/-- Validation failures of `validateRegisterMissionControlRequest`.  Every
error path of the source returns a gRPC status with code `InvalidArgument`
(src/unnamed/part_008 lines 299-400), so `Except.error` below always denotes
an invalid-argument failure. -/
inductive ValidationError where
  | emptyPairs
  | badNodeFromLen
  | badNodeToLen
  | badNodeFromKey
  | badNodeToKey
  | nilHistory
  | negativeAmount
  | failAmtMismatch
  | successAmtMismatch
  | allStale
deriving Repr, DecidableEq

/-- The per-pair loop of `validateRegisterMissionControlRequest`
(src/unnamed/part_008 lines 310-384), threading the `allStale` flag.  The
secp256k1 parse of `btcec.ParsePubKey` is external to the repository and is
abstracted as the predicate `parsePubKey`. -/
def validatePairs (parsePubKey : List Nat → Bool) (nowSec thresholdSec : Int) :
    List PairHistory → Bool → Except ValidationError Unit
  | [], allStale =>
      if allStale then Except.error ValidationError.allStale else Except.ok ()
  | pair :: rest, allStale =>
      if pair.nodeFrom.length ≠ PubKeyCompressedSize then
        Except.error ValidationError.badNodeFromLen
      else if pair.nodeTo.length ≠ PubKeyCompressedSize then
        Except.error ValidationError.badNodeToLen
      else if parsePubKey pair.nodeFrom = false then
        Except.error ValidationError.badNodeFromKey
      else if parsePubKey pair.nodeTo = false then
        Except.error ValidationError.badNodeToKey
      else
        match pair.history with
        | none => Except.error ValidationError.nilHistory
        | some h =>
            if h.failAmtSat < 0 ∨ h.successAmtSat < 0 then
              Except.error ValidationError.negativeAmount
            else if h.failAmtMsat ≠ h.failAmtSat * mSatScale then
              Except.error ValidationError.failAmtMismatch
            else if h.successAmtMsat ≠ h.successAmtSat * mSatScale then
              Except.error ValidationError.successAmtMismatch
            else
              validatePairs parsePubKey nowSec thresholdSec rest
                (allStale && isHistoryStale h nowSec thresholdSec)

/-- `validateRegisterMissionControlRequest` from src/unnamed/part_008 lines
299-400: the variant of the validator that includes the sat/msat conversion
checks (the variant in src/unnamed/part_007 lines 320-412 checks the msat
signs as well but omits the conversion checks).  A `nil` request is modelled
by the empty pair list, which the source likewise rejects. -/
def validateRegisterMissionControlRequest (parsePubKey : List Nat → Bool)
    (nowSec thresholdSec : Int) (pairs : List PairHistory) :
    Except ValidationError Unit :=
  if pairs.length = 0 then Except.error ValidationError.emptyPairs
  else validatePairs parsePubKey nowSec thresholdSec pairs true

/-- `sanitizeRegisterMissionControlRequest` from src/unnamed/part_007 lines
417-439: drop every pair whose history is stale.  The removed-count return
value is not modelled.  The source dereferences `pair.History`
unconditionally (validation has ensured it is non-nil); a `none` history is
kept here, which is unobservable on validated requests. -/
def sanitizeRegisterMissionControlRequest (nowSec thresholdSec : Int)
    (pairs : List PairHistory) : List PairHistory :=
  pairs.filter (fun pair =>
    match pair.history with
    | some h => !(isHistoryStale h nowSec thresholdSec)
    | none => true)

/-- The bbolt bucket `MissionControl`, modelled as an association list from
66-byte keys to `PairData`.  Keys are unique in every store built by the
operations below. -/
abbrev Store := List (List Nat × PairData)

/-- Lookup in the bucket / in the in-memory aggregation map. -/
def storeGet : Store → List Nat → Option PairData
  | [], _ => none
  | kv :: rest, k => if kv.1 = k then some kv.2 else storeGet rest k

/-- `b.Put` / Go map assignment: replace the value at the key, or append the
binding when the key is absent. -/
def storePut : Store → List Nat → PairData → Store
  | [], k, v => [(k, v)]
  | kv :: rest, k, v => if kv.1 = k then (k, v) :: rest else kv :: storePut rest k v

/-- One iteration of the aggregation loop of `RegisterMissionControl`
(src/unnamed/part_007 lines 107-122): merge into the existing entry for the
key, or set the entry verbatim when the key is absent. -/
def aggInsert (minRelax : Int) (m : Store) (k : List Nat) (h : PairData) : Store :=
  match storeGet m k with
  | some existingData => storePut m k (mergePairDataWith minRelax existingData h)
  | none => storePut m k h

/-- The aggregation loop of `RegisterMissionControl` over the request pairs
(src/unnamed/part_007 lines 107-122).  The key is `append(pair.NodeFrom,
pair.NodeTo...)`.  A `none` history is skipped (unreachable on validated
requests, where the source would dereference it). -/
def aggregatePairs (minRelax : Int) (m : Store) (pairs : List PairHistory) : Store :=
  pairs.foldl (fun acc pair =>
    match pair.history with
    | some h => aggInsert minRelax acc (pair.nodeFrom ++ pair.nodeTo) h
    | none => acc) m

/-- `RegisterMissionControl` from src/unnamed/part_007 lines 53-172: validate,
sanitize, load every existing record into the aggregation map, merge the
request pairs into it, and write the aggregated map back.  Because the map is
loaded from the whole bucket before merging, the bucket after the write-back
equals the aggregation map; the store is returned directly. -/
def RegisterMissionControl (parsePubKey : List Nat → Bool)
    (nowSec thresholdSec minRelax : Int) (store : Store)
    (pairs : List PairHistory) : Except ValidationError Store :=
  match validateRegisterMissionControlRequest parsePubKey nowSec thresholdSec pairs with
  | Except.error e => Except.error e
  | Except.ok _ =>
      Except.ok (aggregatePairs minRelax store
        (sanitizeRegisterMissionControlRequest nowSec thresholdSec pairs))

/-- `QueryAggregatedMissionControl` from src/unnamed/part_007 lines 175-225:
return every record, splitting each 66-byte key into its two 33-byte node
identifiers. -/
def QueryAggregatedMissionControl (store : Store) : List PairHistory :=
  store.map (fun kv =>
    { nodeFrom := kv.1.take PubKeyCompressedSize
      nodeTo := kv.1.drop PubKeyCompressedSize
      history := some kv.2 })

/-- `cleanupStaleData` from src/unnamed/part_007 lines 259-316: one sweep
deletes every record whose history is stale and keeps the rest untouched. -/
def cleanupStaleData (nowSec thresholdSec : Int) (store : Store) : Store :=
  store.filter (fun kv => !(isHistoryStale kv.2 nowSec thresholdSec))

/-- M1 only touches the success fields. -/
theorem mergeM1_fail_fields (e n : PairData) :
    (mergeM1 e n).failTime = e.failTime ∧
    (mergeM1 e n).failAmtMsat = e.failAmtMsat ∧
    (mergeM1 e n).failAmtSat = e.failAmtSat := by
  unfold mergeM1
  split_ifs <;> exact ⟨rfl, rfl, rfl⟩

/-- The guard evaluated after M1 (as in the source) agrees with the guard
evaluated on the original record. -/
theorem relaxGuardTrips_mergeM1 (minRelax : Int) (e n : PairData) :
    relaxGuardTrips minRelax (mergeM1 e n) n ↔ relaxGuardTrips minRelax e n := by
  have h := mergeM1_fail_fields e n
  unfold relaxGuardTrips
  rw [h.1, h.2.1]

/-- The M3 state transformer acts as `mergeM3` on the first component and
keeps the second. -/
theorem mergePairDataMutM3_pair (x n : PairData) :
    mergePairDataMutM3 (x, n) = (mergeM3 x n, n) := by
  unfold mergePairDataMutM3 mergeM3
  split_ifs <;> rfl

/-- The M4 state transformer acts as `mergeM4` on the first component and
keeps the second. -/
theorem mergePairDataMutM4_pair (x n : PairData) :
    mergePairDataMutM4 (x, n) = (mergeM4 x, n) := rfl

/-- The failure-block state transformer agrees with the functional tail of
`mergePairDataWith`. -/
theorem mergePairDataMutFail_pair (minRelax : Int) (x n : PairData) :
    mergePairDataMutFail minRelax (x, n) =
      (if relaxGuardTrips minRelax x n then x
       else mergeM4 (mergeM3 (mergeM2 x n) n), n) := by
  unfold mergePairDataMutFail relaxGuardTrips
  by_cases hft : n.failTime > x.failTime
  · by_cases hg : n.failAmtMsat > x.failAmtMsat ∧ n.failTime - x.failTime < minRelax
    · rw [if_pos hft, if_pos hg, if_pos ⟨hft, hg.1, hg.2⟩]
    · have hsw :
          (if n.failAmtMsat = 0 then
            ({ x with
                failTime := n.failTime
                failAmtMsat := n.failAmtMsat
                successAmtMsat := 0 }, n)
          else if n.failAmtMsat ≤ x.successAmtMsat then
            ({ x with
                failTime := n.failTime
                failAmtMsat := n.failAmtMsat
                successAmtMsat := n.failAmtMsat - 1 }, n)
          else
            ({ x with
                failTime := n.failTime
                failAmtMsat := n.failAmtMsat }, n)) = (mergeM2 x n, n) := by
        unfold mergeM2
        rw [if_pos hft]
        split_ifs <;> rfl
      rw [if_pos hft, if_neg hg, hsw, mergePairDataMutM3_pair, mergePairDataMutM4_pair,
        if_neg (show ¬(n.failTime > x.failTime ∧ n.failAmtMsat > x.failAmtMsat ∧
          n.failTime - x.failTime < minRelax) from fun hc => hg ⟨hc.2.1, hc.2.2⟩)]
  · have hm2 : mergeM2 x n = x := by
      unfold mergeM2
      rw [if_neg hft]
    rw [if_neg hft, mergePairDataMutM3_pair, mergePairDataMutM4_pair, hm2,
      if_neg (show ¬(n.failTime > x.failTime ∧ n.failAmtMsat > x.failAmtMsat ∧
        n.failTime - x.failTime < minRelax) from fun hc => hft hc.1)]

/-- The M1 block on the state agrees with `mergeM1`. -/
theorem mergePairDataMut_m1_pair (e n : PairData) :
    (if n.successTime > e.successTime then
      if n.successAmtMsat > e.successAmtMsat then
        ({ e with successTime := n.successTime, successAmtMsat := n.successAmtMsat }, n)
      else ({ e with successTime := n.successTime }, n)
    else (e, n)) = (mergeM1 e n, n) := by
  unfold mergeM1
  split_ifs <;> rfl

/-- Claim C10: `mergePairData` never writes through its second pointer: on
the two-pointer state semantics, the merge maps `(existingData, newData)` to
the merged record paired with `newData` unchanged in all six fields. -/
theorem mergePairDataMut_frame (minRelax : Int) (e n : PairData) :
    mergePairDataMut minRelax (e, n) = (mergePairDataWith minRelax e n, n) := by
  unfold mergePairDataMut
  rw [mergePairDataMut_m1_pair, mergePairDataMutFail_pair]
  unfold mergePairDataWith
  split_ifs <;> rfl

/-- Claim C3: the relaxation guard: when the new observation's failure is
strictly later, raises the failure amount, and lies within `minRelax` seconds
of the existing failure, the whole failure update is discarded —
`failTime` and `failAmtMsat` of the merged record equal the existing ones. -/
theorem mergePairData_relax_guard (minRelax : Int) (e n : PairData)
    (h1 : n.failTime > e.failTime) (h2 : n.failAmtMsat > e.failAmtMsat)
    (h3 : n.failTime - e.failTime < minRelax) :
    (mergePairDataWith minRelax e n).failTime = e.failTime ∧
    (mergePairDataWith minRelax e n).failAmtMsat = e.failAmtMsat := by
  have hg : relaxGuardTrips minRelax (mergeM1 e n) n :=
    (relaxGuardTrips_mergeM1 minRelax e n).mpr ⟨h1, h2, h3⟩
  have h := mergeM1_fail_fields e n
  unfold mergePairDataWith
  rw [if_pos hg]
  exact ⟨h.1, h.2.1⟩

/-- Witness for claim C3 at a concrete input: scenario S4 of the spec
(existing failure at 1000 for 4000000 msat, new failure at 1003 for
5000000 msat, interval 3 s below the 60 s relaxation interval). -/
theorem mergePairData_relax_guard_witness :
    (mergePairData ⟨1000, 4000, 4000000, 0, 0, 0⟩ ⟨1003, 5000, 5000000, 0, 0, 0⟩).failTime
      = 1000 ∧
    (mergePairData ⟨1000, 4000, 4000000, 0, 0, 0⟩ ⟨1003, 5000, 5000000, 0, 0, 0⟩).failAmtMsat
      = 4000000 :=
  mergePairData_relax_guard MinFailureRelaxInterval
    ⟨1000, 4000, 4000000, 0, 0, 0⟩ ⟨1003, 5000, 5000000, 0, 0, 0⟩
    (by decide) (by decide) (by decide)

/-- Claim C4: merger timestamp monotonicity: the merged success time is the
maximum of the two success times; whenever the relaxation guard does not
trip, the merged fail time is the maximum of the two fail times; and neither
timestamp of the existing record ever decreases under a merge. -/
theorem mergePairData_time_monotone (minRelax : Int) (a b : PairData) :
    (mergePairDataWith minRelax a b).successTime = max a.successTime b.successTime ∧
    (¬ relaxGuardTrips minRelax a b →
      (mergePairDataWith minRelax a b).failTime = max a.failTime b.failTime) ∧
    a.successTime ≤ (mergePairDataWith minRelax a b).successTime ∧
    a.failTime ≤ (mergePairDataWith minRelax a b).failTime := by
  simp only [mergePairDataWith, mergeM1, mergeM2, mergeM3, mergeM4, relaxGuardTrips]
  split_ifs <;> simp_all <;> omega

/-- Witness for claim C4 at a concrete input: scenario S2 of the spec (an
older observation merged into a newer one leaves both timestamps at their
maxima; the guard does not trip because the fail amount does not increase). -/
theorem mergePairData_time_monotone_witness :
    (mergePairData ⟨2000, 0, 0, 2000, 0, 0⟩ ⟨1500, 0, 0, 1500, 0, 0⟩).successTime = 2000 ∧
    (mergePairData ⟨2000, 0, 0, 2000, 0, 0⟩ ⟨1500, 0, 0, 1500, 0, 0⟩).failTime = 2000 := by
  have h := mergePairData_time_monotone MinFailureRelaxInterval
    ⟨2000, 0, 0, 2000, 0, 0⟩ ⟨1500, 0, 0, 1500, 0, 0⟩
  exact ⟨by simpa using h.1, by simpa using h.2.1 (by decide)⟩

/-- The liquidity-band non-overlap condition of the spec: whenever
`fail_time > 0` and `success_amt_msat > 0`, `success_amt_msat <
fail_amt_msat`. -/
def bandNonOverlap (d : PairData) : Prop :=
  d.failTime > 0 → d.successAmtMsat > 0 → d.successAmtMsat < d.failAmtMsat

instance (d : PairData) : Decidable (bandNonOverlap d) :=
  inferInstanceAs (Decidable (_ → _ → _))

/-- Counterexample to claim C1 as stated: both inputs satisfy band
non-overlap, yet the merged record does not, because the success update (M1)
raises the success amount and the relaxation guard then returns early,
skipping the success-into-failure repair (M3).  Existing: fail 5000 msat at
time 100, success 1000 msat at time 1.  New: fail 7000 msat at time 101,
success 6000 msat at time 2.  The guard trips (7000 > 5000 within 1 s < 60 s)
and the result has success 6000 msat against the kept fail 5000 msat. -/
theorem mergePairData_band_overlap_cex :
    bandNonOverlap ⟨100, 5, 5000, 1, 1, 1000⟩ ∧
    bandNonOverlap ⟨101, 7, 7000, 2, 6, 6000⟩ ∧
    ¬ bandNonOverlap
      (mergePairData ⟨100, 5, 5000, 1, 1, 1000⟩ ⟨101, 7, 7000, 2, 6, 6000⟩) := by
  decide

/-- Claim C1 (amended): band non-overlap is preserved by the merger on every
path except the relaxation-guard early return: if both inputs satisfy
non-overlap and the guard does not trip, the merged record satisfies
non-overlap. -/
theorem mergePairData_bandNonOverlap_of_no_guard (minRelax : Int) (e n : PairData)
    (he : bandNonOverlap e) (hn : bandNonOverlap n)
    (hg : ¬ relaxGuardTrips minRelax e n) :
    bandNonOverlap (mergePairDataWith minRelax e n) := by
  rw [mergePairDataWith, if_neg ((relaxGuardTrips_mergeM1 minRelax e n).not.mpr hg)]
  have h1 := mergeM1_fail_fields e n
  have h1s : (mergeM1 e n).successAmtMsat = e.successAmtMsat ∨
      ((mergeM1 e n).successAmtMsat = n.successAmtMsat ∧
        e.successAmtMsat < n.successAmtMsat) := by
    unfold mergeM1
    split_ifs <;> simp_all
  simp only [bandNonOverlap] at he hn ⊢
  generalize mergeM1 e n = s1 at h1 h1s ⊢
  obtain ⟨h1f, h1fa, -⟩ := h1
  unfold mergeM2 mergeM3 mergeM4
  split_ifs <;> simp_all <;> omega

/-- Witness for the amended claim C1 at a concrete input: a newer failure
outside the relaxation window shrinks the success band below it. -/
theorem mergePairData_bandNonOverlap_witness :
    bandNonOverlap
      (mergePairData ⟨100, 8, 8000, 1, 1, 1000⟩ ⟨200, 5, 5000, 2, 2, 2000⟩) :=
  mergePairData_bandNonOverlap_of_no_guard MinFailureRelaxInterval
    ⟨100, 8, 8000, 1, 1, 1000⟩ ⟨200, 5, 5000, 2, 2, 2000⟩
    (by decide) (by decide) (by decide)

/-- Counterexample to claim C2 as stated: on the relaxation-guard early
return the unit rederivation (M4) is skipped, so a success amount updated by
M1 leaves the satoshi field stale.  Existing: success 1000 msat / 1 sat at
time 1, fail 5000 msat at time 100.  New: success 3000 msat at time 2, fail
6000 msat at time 101.  M1 sets the success amount to 3000 msat, the guard
trips and returns early, and the merged record reports 1 sat instead of 3. -/
theorem mergePairData_unit_consistency_cex :
    (mergePairData ⟨100, 5, 5000, 1, 1, 1000⟩ ⟨101, 6, 6000, 2, 3, 3000⟩).successAmtSat ≠
      Int.tdiv
        (mergePairData ⟨100, 5, 5000, 1, 1, 1000⟩ ⟨101, 6, 6000, 2, 3, 3000⟩).successAmtMsat
        mSatScale ∧
    (mergePairData ⟨100, 5, 5000, 1, 1, 1000⟩ ⟨101, 6, 6000, 2, 3, 3000⟩).successAmtSat ≠
      Int.fdiv
        (mergePairData ⟨100, 5, 5000, 1, 1, 1000⟩ ⟨101, 6, 6000, 2, 3, 3000⟩).successAmtMsat
        mSatScale := by
  decide

/-- Claim C2 (amended): on every exit path of the merger except the
relaxation-guard early return, the satoshi fields are rederived from the
millisatoshi fields by Go integer division (truncation toward zero, which is
floor division on the non-negative amounts); on the guard path the satoshi
fields are left unchanged. -/
theorem mergePairData_unit_consistency_of_no_guard (minRelax : Int) (e n : PairData)
    (hg : ¬ relaxGuardTrips minRelax e n) :
    (mergePairDataWith minRelax e n).successAmtSat =
      Int.tdiv (mergePairDataWith minRelax e n).successAmtMsat mSatScale ∧
    (mergePairDataWith minRelax e n).failAmtSat =
      Int.tdiv (mergePairDataWith minRelax e n).failAmtMsat mSatScale := by
  rw [mergePairDataWith, if_neg ((relaxGuardTrips_mergeM1 minRelax e n).not.mpr hg)]
  exact ⟨rfl, rfl⟩

/-- Witness for the amended claim C2 at a concrete input. -/
theorem mergePairData_unit_consistency_witness :
    (mergePairData ⟨100, 8, 8000, 1, 1, 1000⟩ ⟨200, 5, 5000, 2, 2, 2000⟩).successAmtSat =
      Int.tdiv
        (mergePairData ⟨100, 8, 8000, 1, 1, 1000⟩ ⟨200, 5, 5000, 2, 2, 2000⟩).successAmtMsat
        mSatScale ∧
    (mergePairData ⟨100, 8, 8000, 1, 1, 1000⟩ ⟨200, 5, 5000, 2, 2, 2000⟩).failAmtSat =
      Int.tdiv
        (mergePairData ⟨100, 8, 8000, 1, 1, 1000⟩ ⟨200, 5, 5000, 2, 2, 2000⟩).failAmtMsat
        mSatScale :=
  mergePairData_unit_consistency_of_no_guard MinFailureRelaxInterval
    ⟨100, 8, 8000, 1, 1, 1000⟩ ⟨200, 5, 5000, 2, 2, 2000⟩ (by decide)

/-- The per-pair validator loop rejects any list containing a pair whose
present history has inconsistent sat/msat units, whatever the incoming
`allStale` flag. -/
theorem validatePairs_error_of_unit_mismatch (parsePubKey : List Nat → Bool)
    (nowSec thresholdSec : Int) :
    ∀ (pairs : List PairHistory) (flag : Bool) (p : PairHistory) (h : PairData),
      p ∈ pairs → p.history = some h →
      (h.failAmtSat * mSatScale ≠ h.failAmtMsat ∨
        h.successAmtSat * mSatScale ≠ h.successAmtMsat) →
      ∃ err, validatePairs parsePubKey nowSec thresholdSec pairs flag
        = Except.error err
  | [], _, p, h, hmem, _, _ => absurd hmem (List.not_mem_nil p)
  | q :: rest, flag, p, h, hmem, hh, hbad => by
      rcases List.mem_cons.mp hmem with hq | hrest
      · subst hq
        rcases p with ⟨nf, nt, hist⟩
        simp only at hh
        subst hh
        simp only [validatePairs]
        split_ifs <;> first
          | exact ⟨_, rfl⟩
          | (exfalso
             rcases hbad with hb | hb <;> simp_all [mSatScale])
      · simp only [validatePairs]
        split_ifs <;> try exact ⟨_, rfl⟩
        cases q.history with
        | none => exact ⟨_, rfl⟩
        | some hq' =>
            dsimp only
            split_ifs <;> first
              | exact ⟨_, rfl⟩
              | exact validatePairs_error_of_unit_mismatch parsePubKey nowSec
                  thresholdSec rest _ p h hrest hh hbad

/-- Claim C5: the validator returns an invalid-argument failure for every
request containing a pair whose (present) history has inconsistent sat/msat
units; equivalently every accepted request has consistent units in all its
pairs.  Every error of the source validator carries the `InvalidArgument`
code. -/
theorem validate_rejects_unit_mismatch (parsePubKey : List Nat → Bool)
    (nowSec thresholdSec : Int) (pairs : List PairHistory) (p : PairHistory)
    (h : PairData) (hmem : p ∈ pairs) (hh : p.history = some h)
    (hbad : h.failAmtSat * mSatScale ≠ h.failAmtMsat ∨
      h.successAmtSat * mSatScale ≠ h.successAmtMsat) :
    ∃ err, validateRegisterMissionControlRequest parsePubKey nowSec thresholdSec pairs
      = Except.error err := by
  have hlen : pairs.length ≠ 0 := by
    cases pairs with
    | nil => cases hmem
    | cons q rest => simp
  rw [validateRegisterMissionControlRequest, if_neg hlen]
  exact validatePairs_error_of_unit_mismatch parsePubKey nowSec thresholdSec
    pairs true p h hmem hh hbad

/-- Witness for claim C5 at a concrete input: a request whose single pair
has fail amounts 1 sat / 500 msat (1 * 1000 ≠ 500) is rejected. -/
theorem validate_rejects_unit_mismatch_witness :
    ∃ err, validateRegisterMissionControlRequest (fun _ => true) 1000 600
      [⟨List.replicate 33 0, List.replicate 33 1, some ⟨1000, 1, 500, 1000, 2, 2000⟩⟩]
      = Except.error err :=
  validate_rejects_unit_mismatch (fun _ => true) 1000 600
    [⟨List.replicate 33 0, List.replicate 33 1, some ⟨1000, 1, 500, 1000, 2, 2000⟩⟩]
    ⟨List.replicate 33 0, List.replicate 33 1, some ⟨1000, 1, 500, 1000, 2, 2000⟩⟩
    ⟨1000, 1, 500, 1000, 2, 2000⟩
    (List.mem_singleton.mpr rfl) rfl (Or.inl (by decide))

/-- The clamped variadic maximum on a two-element list. -/
theorem mostRecentUnixTimestamp_pair (a b : Int) :
    mostRecentUnixTimestamp [a, b] = max (max 0 a) b := by
  simp only [mostRecentUnixTimestamp, List.foldl]
  split_ifs <;> omega

/-- Staleness unfolded to an arithmetic comparison on the clamped most
recent timestamp. -/
theorem isHistoryStale_iff (h : PairData) (nowSec thresholdSec : Int) :
    isHistoryStale h nowSec thresholdSec = true ↔
      max (max 0 h.failTime) h.successTime < nowSec - thresholdSec := by
  simp [isHistoryStale, mostRecentUnixTimestamp_pair]

/-- The per-pair validator loop returns the all-stale error when every pair
passes the per-pair checks and is stale. -/
theorem validatePairs_all_stale (parsePubKey : List Nat → Bool)
    (nowSec thresholdSec : Int) :
    ∀ pairs : List PairHistory,
      (∀ p ∈ pairs, p.nodeFrom.length = PubKeyCompressedSize ∧
        p.nodeTo.length = PubKeyCompressedSize ∧
        parsePubKey p.nodeFrom = true ∧ parsePubKey p.nodeTo = true ∧
        ∃ h, p.history = some h ∧ ¬(h.failAmtSat < 0 ∨ h.successAmtSat < 0) ∧
          h.failAmtMsat = h.failAmtSat * mSatScale ∧
          h.successAmtMsat = h.successAmtSat * mSatScale ∧
          isHistoryStale h nowSec thresholdSec = true) →
      validatePairs parsePubKey nowSec thresholdSec pairs true
        = Except.error ValidationError.allStale
  | [], _ => rfl
  | q :: rest, hall => by
      obtain ⟨h1, h2, h3, h4, h, hh, hneg, hfm, hsm, hstale⟩ :=
        hall q (List.mem_cons_self q rest)
      simp only [validatePairs]
      rw [if_neg (by simp [h1]), if_neg (by simp [h2]), if_neg (by simp [h3]),
        if_neg (by simp [h4]), hh]
      dsimp only
      rw [if_neg hneg, if_neg (by simp [hfm]), if_neg (by simp [hsm]), hstale]
      exact validatePairs_all_stale parsePubKey nowSec thresholdSec rest
        (fun p hp => hall p (List.mem_cons_of_mem q hp))

/-- Claim C9: a history whose two timestamps are both 0 is stale for every
non-negative threshold smaller than the current UNIX time, and a request all
of whose pairs have both timestamps 0 — while passing every other per-pair
check — is rejected by the validator with the invalid-argument all-stale
error. -/
theorem zero_timestamps_stale_rejected (parsePubKey : List Nat → Bool)
    (nowSec thresholdSec : Int) (pairs : List PairHistory)
    (hthr : 0 ≤ thresholdSec) (hnow : thresholdSec < nowSec)
    (hne : pairs ≠ [])
    (hall : ∀ p ∈ pairs, p.nodeFrom.length = PubKeyCompressedSize ∧
      p.nodeTo.length = PubKeyCompressedSize ∧
      parsePubKey p.nodeFrom = true ∧ parsePubKey p.nodeTo = true ∧
      ∃ h, p.history = some h ∧ ¬(h.failAmtSat < 0 ∨ h.successAmtSat < 0) ∧
        h.failAmtMsat = h.failAmtSat * mSatScale ∧
        h.successAmtMsat = h.successAmtSat * mSatScale ∧
        h.failTime = 0 ∧ h.successTime = 0) :
    (∀ h : PairData, h.failTime = 0 → h.successTime = 0 →
      isHistoryStale h nowSec thresholdSec = true) ∧
    validateRegisterMissionControlRequest parsePubKey nowSec thresholdSec pairs
      = Except.error ValidationError.allStale := by
  have hstale : ∀ h : PairData, h.failTime = 0 → h.successTime = 0 →
      isHistoryStale h nowSec thresholdSec = true := by
    intro h hf hs
    rw [isHistoryStale_iff, hf, hs]
    omega
  refine ⟨hstale, ?_⟩
  have hlen : pairs.length ≠ 0 := by
    cases pairs with
    | nil => exact absurd rfl hne
    | cons q rest => simp
  rw [validateRegisterMissionControlRequest, if_neg hlen]
  refine validatePairs_all_stale parsePubKey nowSec thresholdSec pairs ?_
  intro p hp
  obtain ⟨h1, h2, h3, h4, h, hh, hneg, hfm, hsm, hf, hs⟩ := hall p hp
  exact ⟨h1, h2, h3, h4, h, hh, hneg, hfm, hsm, hstale h hf hs⟩

/-- Witness for claim C9 at a concrete input: one pair with both timestamps
0 and otherwise valid fields, threshold 600 s, current time 1000 s. -/
theorem zero_timestamps_stale_rejected_witness :
    isHistoryStale ⟨0, 1, 1000, 0, 2, 2000⟩ 1000 600 = true ∧
    validateRegisterMissionControlRequest (fun _ => true) 1000 600
      [⟨List.replicate 33 0, List.replicate 33 1, some ⟨0, 1, 1000, 0, 2, 2000⟩⟩]
      = Except.error ValidationError.allStale := by
  have h := zero_timestamps_stale_rejected (fun _ => true) 1000 600
    [⟨List.replicate 33 0, List.replicate 33 1, some ⟨0, 1, 1000, 0, 2, 2000⟩⟩]
    (by decide) (by decide) (by decide)
    (by
      intro p hp
      rw [List.mem_singleton] at hp
      subst hp
      refine ⟨by decide, by decide, rfl, rfl, ⟨0, 1, 1000, 0, 2, 2000⟩, rfl, ?_, ?_, ?_, rfl, rfl⟩
      · decide
      · decide
      · decide)
  exact ⟨h.1 ⟨0, 1, 1000, 0, 2, 2000⟩ rfl rfl, h.2⟩

/-- Claim C8: one sweep of `cleanupStaleData` deletes exactly the records
whose most recent timestamp is strictly older than `now - history_threshold`
and keeps every other record's key and value (and their order) unchanged;
consequently any record older than the threshold is absent after one sweep.
The hypothesis `0 < now - threshold` (the current time exceeds the
configured duration) makes the source's 0-clamped variadic maximum agree
with the plain `max` of the two timestamps. -/
theorem cleanupStaleData_removes_exactly_stale (nowSec thresholdSec : Int)
    (store : Store) (hpos : 0 < nowSec - thresholdSec) :
    cleanupStaleData nowSec thresholdSec store =
      store.filter (fun kv =>
        decide (nowSec - thresholdSec ≤ max kv.2.failTime kv.2.successTime)) ∧
    ∀ kv ∈ store, max kv.2.failTime kv.2.successTime < nowSec - thresholdSec →
      kv ∉ cleanupStaleData nowSec thresholdSec store := by
  have hpt : ∀ kv : List Nat × PairData,
      (!(isHistoryStale kv.2 nowSec thresholdSec)) =
        decide (nowSec - thresholdSec ≤ max kv.2.failTime kv.2.successTime) := by
    intro kv
    rw [isHistoryStale, mostRecentUnixTimestamp_pair, ← decide_not]
    exact decide_eq_decide.mpr (by omega)
  constructor
  · exact List.filter_congr (fun kv _ => hpt kv)
  · intro kv hmem hold hcontra
    rw [cleanupStaleData, List.mem_filter] at hcontra
    rw [hpt kv] at hcontra
    have := of_decide_eq_true hcontra.2
    omega

/-- Witness for claim C8 at a concrete input: with current time 1000 s and
threshold 600 s, a record last seen at 100 s is swept and a record last seen
at 500 s is kept. -/
theorem cleanupStaleData_witness :
    0 < (1000 : Int) - 600 ∧
    cleanupStaleData 1000 600
        [(List.replicate 66 0, ⟨100, 0, 0, 50, 0, 0⟩),
         (List.replicate 66 1, ⟨0, 0, 0, 500, 0, 0⟩)] =
      List.filter (fun kv =>
        decide ((1000 : Int) - 600 ≤ max kv.2.failTime kv.2.successTime))
        [(List.replicate 66 0, ⟨100, 0, 0, 50, 0, 0⟩),
         (List.replicate 66 1, ⟨0, 0, 0, 500, 0, 0⟩)] :=
  ⟨by decide,
    (cleanupStaleData_removes_exactly_stale 1000 600
      [(List.replicate 66 0, ⟨100, 0, 0, 50, 0, 0⟩),
       (List.replicate 66 1, ⟨0, 0, 0, 500, 0, 0⟩)] (by decide)).1⟩

/-- Lookup after a put: the put key maps to the new value and every other
key is untouched. -/
theorem storeGet_storePut (s : Store) (k0 : List Nat) (v : PairData) (k : List Nat) :
    storeGet (storePut s k0 v) k = if k0 = k then some v else storeGet s k := by
  induction s with
  | nil => simp [storePut, storeGet]
  | cons kv rest ih =>
      by_cases h0 : kv.1 = k0
      · by_cases hk : k0 = k
        · simp [storePut, storeGet, h0, hk]
        · simp [storePut, storeGet, h0, hk]
      · by_cases hkv : kv.1 = k
        · have hk : ¬ k0 = k := fun hc => h0 (hkv.trans hc.symm)
          have hk' : ¬ k = k0 := fun hc => h0 (hkv.trans hc)
          simp [storePut, storeGet, h0, hkv, hk, hk']
        · simp [storePut, storeGet, h0, hkv, ih]

/-- Aggregation-step lookup at the inserted key. -/
theorem storeGet_aggInsert_self (minRelax : Int) (m : Store) (k0 : List Nat)
    (h : PairData) :
    storeGet (aggInsert minRelax m k0 h) k0 =
      some (match storeGet m k0 with
        | some existingData => mergePairDataWith minRelax existingData h
        | none => h) := by
  rw [aggInsert]
  cases hg : storeGet m k0 <;> simp [storeGet_storePut]

/-- Aggregation-step lookup at any other key. -/
theorem storeGet_aggInsert_ne (minRelax : Int) (m : Store) (k0 : List Nat)
    (h : PairData) (k : List Nat) (hne : k0 ≠ k) :
    storeGet (aggInsert minRelax m k0 h) k = storeGet m k := by
  rw [aggInsert]
  cases hg : storeGet m k0 <;> simp [storeGet_storePut, hne]

/-- Counterexample to claim C6 as stated: two same-key pairs in one request
do not merge order-independently.  With no failure data, a pair with success
100000 msat at time 1 and a pair with success 50000 msat at time 2 yield
success amount 100000 when the earlier pair is first (M1 keeps the larger
amount) but 50000 when the later pair is first (the earlier, larger success
is simply discarded because its time is not strictly newer). -/
theorem aggregate_order_dependent_cex :
    storeGet
      (aggregatePairs MinFailureRelaxInterval []
        [⟨List.replicate 33 0, List.replicate 33 1, some ⟨0, 0, 0, 1, 100, 100000⟩⟩,
         ⟨List.replicate 33 0, List.replicate 33 1, some ⟨0, 0, 0, 2, 50, 50000⟩⟩])
      (List.replicate 33 0 ++ List.replicate 33 1) ≠
    storeGet
      (aggregatePairs MinFailureRelaxInterval []
        [⟨List.replicate 33 0, List.replicate 33 1, some ⟨0, 0, 0, 2, 50, 50000⟩⟩,
         ⟨List.replicate 33 0, List.replicate 33 1, some ⟨0, 0, 0, 1, 100, 100000⟩⟩])
      (List.replicate 33 0 ++ List.replicate 33 1) := by
  decide

/-- Claim C6 (amended): aggregation steps for distinct keys commute: for two
request pairs whose 66-byte keys differ, folding them through the
registration aggregation loop in either order yields the same aggregated
value at every key.  (Same-key merges are order-dependent, see the
counterexample.) -/
theorem aggregatePairs_distinct_keys_comm (minRelax : Int) (m : Store)
    (p q : PairHistory)
    (hk : p.nodeFrom ++ p.nodeTo ≠ q.nodeFrom ++ q.nodeTo) (k : List Nat) :
    storeGet (aggregatePairs minRelax m [p, q]) k =
      storeGet (aggregatePairs minRelax m [q, p]) k := by
  rcases hp : p.history with _ | hp' <;> rcases hq : q.history with _ | hq' <;>
    simp only [aggregatePairs, List.foldl, hp, hq]
  by_cases hkp : p.nodeFrom ++ p.nodeTo = k
  · have hqk : q.nodeFrom ++ q.nodeTo ≠ k := fun hc => hk (hkp.trans hc.symm)
    rw [storeGet_aggInsert_ne minRelax _ _ hq' k hqk, hkp,
      storeGet_aggInsert_self, storeGet_aggInsert_self,
      storeGet_aggInsert_ne minRelax m _ hq' _ (hkp ▸ hqk)]
  · by_cases hkq : q.nodeFrom ++ q.nodeTo = k
    · subst hkq
      rw [storeGet_aggInsert_ne minRelax (aggInsert minRelax m (q.nodeFrom ++ q.nodeTo) hq')
          (p.nodeFrom ++ p.nodeTo) hp' (q.nodeFrom ++ q.nodeTo) hk,
        storeGet_aggInsert_self, storeGet_aggInsert_self,
        storeGet_aggInsert_ne minRelax m (p.nodeFrom ++ p.nodeTo) hp'
          (q.nodeFrom ++ q.nodeTo) hk]
    · rw [storeGet_aggInsert_ne minRelax _ _ hq' k hkq,
        storeGet_aggInsert_ne minRelax m _ hp' k hkp,
        storeGet_aggInsert_ne minRelax _ _ hp' k hkp,
        storeGet_aggInsert_ne minRelax m _ hq' k hkq]

/-- Witness for the amended claim C6 at a concrete input: two pairs with
distinct keys aggregated in both orders agree at the first key. -/
theorem aggregatePairs_distinct_keys_comm_witness :
    storeGet
      (aggregatePairs MinFailureRelaxInterval []
        [⟨List.replicate 33 0, List.replicate 33 1, some ⟨0, 0, 0, 1, 100, 100000⟩⟩,
         ⟨List.replicate 33 2, List.replicate 33 3, some ⟨0, 0, 0, 2, 50, 50000⟩⟩])
      (List.replicate 33 0 ++ List.replicate 33 1) =
    storeGet
      (aggregatePairs MinFailureRelaxInterval []
        [⟨List.replicate 33 2, List.replicate 33 3, some ⟨0, 0, 0, 2, 50, 50000⟩⟩,
         ⟨List.replicate 33 0, List.replicate 33 1, some ⟨0, 0, 0, 1, 100, 100000⟩⟩])
      (List.replicate 33 0 ++ List.replicate 33 1) :=
  aggregatePairs_distinct_keys_comm MinFailureRelaxInterval []
    ⟨List.replicate 33 0, List.replicate 33 1, some ⟨0, 0, 0, 1, 100, 100000⟩⟩
    ⟨List.replicate 33 2, List.replicate 33 3, some ⟨0, 0, 0, 2, 50, 50000⟩⟩
    (by decide)
    (List.replicate 33 0 ++ List.replicate 33 1)

/-- Inversion of a successful validation of a singleton request: the key has
the right length, the units are consistent, and the pair is not stale. -/
theorem validate_singleton_ok (parsePubKey : List Nat → Bool)
    (nowSec thresholdSec : Int) (H : PairHistory) (h : PairData)
    (hh : H.history = some h)
    (hok : validateRegisterMissionControlRequest parsePubKey nowSec thresholdSec [H]
      = Except.ok ()) :
    H.nodeFrom.length = PubKeyCompressedSize ∧
    h.failAmtMsat = h.failAmtSat * mSatScale ∧
    h.successAmtMsat = h.successAmtSat * mSatScale ∧
    isHistoryStale h nowSec thresholdSec = false := by
  rw [validateRegisterMissionControlRequest,
    if_neg (by simp : ¬([H] : List PairHistory).length = 0)] at hok
  rcases H with ⟨nf, nt, hist⟩
  simp only at hh
  subst hh
  simp only [validatePairs] at hok
  split_ifs at hok with h1 h2 h3 h4 h5 h6 h7 h8 <;>
    first
      | exact Except.noConfusion hok
      | exact ⟨not_not.mp h1, not_not.mp h6, not_not.mp h7, by simpa using h8⟩

/-- Claim C7: register/query round trip: a validated singleton request on the
empty store produces exactly the one record keyed by `node_from || node_to`
with the history stored verbatim, and querying returns exactly one record
whose node identifiers equal the request's and whose history is the request
history after M4 unit rederivation (which, for a validated history, is the
history itself). -/
theorem register_query_round_trip (parsePubKey : List Nat → Bool)
    (nowSec thresholdSec minRelax : Int) (H : PairHistory) (h : PairData)
    (hh : H.history = some h)
    (hok : validateRegisterMissionControlRequest parsePubKey nowSec thresholdSec [H]
      = Except.ok ()) :
    RegisterMissionControl parsePubKey nowSec thresholdSec minRelax [] [H]
      = Except.ok [(H.nodeFrom ++ H.nodeTo, h)] ∧
    QueryAggregatedMissionControl [(H.nodeFrom ++ H.nodeTo, h)]
      = [⟨H.nodeFrom, H.nodeTo, some (mergeM4 h)⟩] := by
  obtain ⟨hlen, hfm, hsm, hst⟩ :=
    validate_singleton_ok parsePubKey nowSec thresholdSec H h hh hok
  have hM4 : mergeM4 h = h := by
    obtain ⟨ft, fs, fm, st, ss, sm⟩ := h
    obtain rfl : fm = fs * mSatScale := hfm
    obtain rfl : sm = ss * mSatScale := hsm
    simp [mergeM4, PairData.mk.injEq,
      Int.mul_tdiv_cancel fs (show mSatScale ≠ 0 by decide),
      Int.mul_tdiv_cancel ss (show mSatScale ≠ 0 by decide)]
  constructor
  · simp only [RegisterMissionControl, hok]
    simp [sanitizeRegisterMissionControlRequest, List.filter, hh, hst,
      aggregatePairs, aggInsert, storeGet, storePut]
  · simp only [QueryAggregatedMissionControl, List.map, hM4]
    rw [show (H.nodeFrom ++ H.nodeTo).take PubKeyCompressedSize = H.nodeFrom from by
        rw [← hlen]
        exact List.take_left H.nodeFrom H.nodeTo,
      show (H.nodeFrom ++ H.nodeTo).drop PubKeyCompressedSize = H.nodeTo from by
        rw [← hlen]
        exact List.drop_left H.nodeFrom H.nodeTo]

/-- Witness for claim C7 at a concrete input: scenario S1 of the spec
(current time 1000 s, threshold 600 s, one pair with consistent units and
fresh timestamps). -/
theorem register_query_round_trip_witness :
    RegisterMissionControl (fun _ => true) 1000 600 MinFailureRelaxInterval []
      [⟨List.replicate 33 0, List.replicate 33 1,
        some ⟨1000, 100, 100000, 1000, 200, 200000⟩⟩]
      = Except.ok [(List.replicate 33 0 ++ List.replicate 33 1,
          ⟨1000, 100, 100000, 1000, 200, 200000⟩)] ∧
    QueryAggregatedMissionControl
      [(List.replicate 33 0 ++ List.replicate 33 1,
        ⟨1000, 100, 100000, 1000, 200, 200000⟩)]
      = [⟨List.replicate 33 0, List.replicate 33 1,
          some (mergeM4 ⟨1000, 100, 100000, 1000, 200, 200000⟩)⟩] :=
  register_query_round_trip (fun _ => true) 1000 600 MinFailureRelaxInterval
    ⟨List.replicate 33 0, List.replicate 33 1,
      some ⟨1000, 100, 100000, 1000, 200, 200000⟩⟩
    ⟨1000, 100, 100000, 1000, 200, 200000⟩ rfl rfl
